import Mathlib

/-!
# Verification of the menubox pop-up menu library

A shallow embedding of `src/menubox2.js` (classes `Menubox2Item`,
`Menubox2ItemRenderer`, `Menubox2`) together with proofs about the embedded
operations.  DOM elements are modelled by the pieces of state the code
actually reads and writes: an element's class list is a list of class names,
`element.style.visibility` is a string, visibility of the registered
menuboxes is a map from menubox id to `Bool`, and the JS event loop's pending
`setTimeout` entries are an explicit list.
-/

namespace Menubox

/-! ## JavaScript value and class-list model -/

/-- A JavaScript runtime value, as far as the menubox code inspects one
dynamically (the only dynamic type test performed is
`typeof val === "boolean"` in the `checked` / `enabled` setters). -/
inductive JSVal where
  | bool (b : Bool)
  | str (s : String)
  | num (n : Int)
  | undef
  | null
  | obj
deriving DecidableEq, Repr

/-- `typeof val === "boolean"`. -/
def JSVal.isBool : JSVal → Bool
  | .bool _ => true
  | _ => false

/-- A DOM element's `classList`, modelled as the list of its class names in
insertion order. -/
abbrev ClassList := List String

/-- `classList.contains(c)`. -/
def ClassList.containsClass (cl : ClassList) (c : String) : Bool :=
  cl.contains c

/-- `classList.add(c)`: appends the class name unless it is already present. -/
def ClassList.addClass (cl : ClassList) (c : String) : ClassList :=
  if cl.contains c then cl else cl ++ [c]

/-- `classList.remove(c)`. -/
def ClassList.removeClass (cl : ClassList) (c : String) : ClassList :=
  cl.filter (fun x => x != c)

/-- `classList.toggle(c, force)` with an explicit `force` argument: adds the
class when `force` is true, removes it when `force` is false. -/
def ClassList.toggleForce (cl : ClassList) (c : String) (force : Bool) : ClassList :=
  if force then cl.addClass c else cl.removeClass c

theorem ClassList.contains_addClass (cl : ClassList) (c : String) :
    (cl.addClass c).containsClass c = true := by
  unfold ClassList.addClass ClassList.containsClass
  split <;> simp_all

theorem ClassList.not_contains_removeClass (cl : ClassList) (c : String) :
    (cl.removeClass c).containsClass c = false := by
  unfold ClassList.removeClass ClassList.containsClass
  simp

/-! ## Claim C9: the `checked` / `enabled` setters -/

/-- The error thrown by the setters on a contract violation. -/
inductive JSError where
  | typeError (msg : String)
deriving DecidableEq, Repr

/-- `get checked ()`: `this.element.classList.contains("checked")`. -/
def checkedGet (cl : ClassList) : Bool :=
  cl.containsClass "checked"

/-- `get enabled ()`: `this.element.classList.contains("disabled") === false`. -/
def enabledGet (cl : ClassList) : Bool :=
  cl.containsClass "disabled" == false

/-- `set checked (val)`: if `typeof val === "boolean"` then
`classList.toggle("checked", val === true)`, else `throw new TypeError(...)`.
The throw happens before any mutation, so on the error path the class list is
returned unchanged next to the raised error. -/
def setChecked (cl : ClassList) (val : JSVal) : ClassList × Option JSError :=
  match val with
  | .bool b => (cl.toggleForce "checked" (b == true), none)
  | _ => (cl, some (.typeError "Boolean value expected."))

/-- `set enabled (val)`: if `typeof val === "boolean"` then
`classList.toggle("disabled", val === false)`, else `throw new TypeError(...)`. -/
def setEnabled (cl : ClassList) (val : JSVal) : ClassList × Option JSError :=
  match val with
  | .bool b => (cl.toggleForce "disabled" (b == false), none)
  | _ => (cl, some (.typeError "Boolean value expected."))

/-- **C9.** Assigning a non-boolean value to an item's `checked` or `enabled`
property raises a `TypeError` immediately and leaves the class list (hence the
item's checked/enabled state) unchanged; assigning a boolean `b` raises
nothing and makes the corresponding getter return `b`. -/
theorem checked_enabled_setter_contract (cl : ClassList) (v : JSVal) (b : Bool) :
    (v.isBool = false →
      setChecked cl v = (cl, some (.typeError "Boolean value expected.")) ∧
      setEnabled cl v = (cl, some (.typeError "Boolean value expected."))) ∧
    (setChecked cl (.bool b)).2 = none ∧
    (setEnabled cl (.bool b)).2 = none ∧
    checkedGet (setChecked cl (.bool b)).1 = b ∧
    enabledGet (setEnabled cl (.bool b)).1 = b := by
  refine ⟨fun hv => ?_, rfl, rfl, ?_, ?_⟩
  · cases v <;> simp_all [setChecked, setEnabled, JSVal.isBool]
  · cases b
    · simpa [setChecked, checkedGet, ClassList.toggleForce] using
        ClassList.not_contains_removeClass cl "checked"
    · simpa [setChecked, checkedGet, ClassList.toggleForce] using
        ClassList.contains_addClass cl "checked"
  · cases b
    · simpa [setEnabled, enabledGet, ClassList.toggleForce] using
        ClassList.contains_addClass cl "disabled"
    · simpa [setEnabled, enabledGet, ClassList.toggleForce] using
        ClassList.not_contains_removeClass cl "disabled"

/-- Witness for C9 at concrete inputs: a string value is rejected with the
class list untouched, and assigning `true` makes `checked` read back `true`. -/
theorem checked_enabled_setter_contract_witness :
    (JSVal.str "yes").isBool = false ∧
    (setChecked ["menubox-item"] (.str "yes") =
      (["menubox-item"], some (.typeError "Boolean value expected.")) ∧
     setEnabled ["menubox-item"] (.str "yes") =
      (["menubox-item"], some (.typeError "Boolean value expected."))) ∧
    checkedGet (setChecked ["menubox-item"] (.bool true)).1 = true :=
  ⟨by decide,
   (checked_enabled_setter_contract ["menubox-item"] (.str "yes") true).1 (by decide),
   (checked_enabled_setter_contract ["menubox-item"] (.str "yes") true).2.2.2.1⟩

/-! ## Claim C8: the submenu-open delay -/

/-- JS truthiness of a number: `0` is falsy (as is `NaN`, which has no
counterpart here), every other number is truthy. -/
def numTruthy (n : Int) : Bool :=
  n != 0

/-- `options.submenuDelay || 300` — the JS or-else on a possibly missing
number (`undefined` is falsy, and so is a supplied `0`). -/
def jsOrNum (v : Option Int) (d : Int) : Int :=
  match v with
  | none => d
  | some n => if numTruthy n then n else d

/-- `this.submenuDelay = Math.max(options.submenuDelay || 300, 0)`
(constructor, line 361). -/
def submenuDelayOf (optsDelay : Option Int) : Int :=
  max (jsOrNum optsDelay 300) 0

/-- **C8, counterexample.** The claim states that every non-negative supplied
value, including `0`, is kept as given.  But a supplied `0` is falsy for the
`||` operator, so the constructor falls back to the default `300`. -/
theorem submenu_delay_zero_cex :
    submenuDelayOf (some 0) = 300 ∧ submenuDelayOf (some 0) ≠ 0 := by
  decide

/-- **C8, amended.** The constructed submenu-open delay is 300 when the
definition supplies no `submenuDelay` or supplies `0`; a positive supplied
value is kept as given; a negative supplied value is clamped to `0`. -/
theorem submenu_delay_amended :
    submenuDelayOf none = 300 ∧
    submenuDelayOf (some 0) = 300 ∧
    (∀ n : Int, 0 < n → submenuDelayOf (some n) = n) ∧
    (∀ n : Int, n < 0 → submenuDelayOf (some n) = 0) := by
  refine ⟨rfl, by decide, fun n hn => ?_, fun n hn => ?_⟩
  · have hnz : (n != 0) = true := by simp; omega
    simp [submenuDelayOf, jsOrNum, numTruthy, hnz]
    omega
  · have hnz : (n != 0) = true := by simp; omega
    simp [submenuDelayOf, jsOrNum, numTruthy, hnz]
    omega

/-- Witness for C8 (amended) at concrete inputs. -/
theorem submenu_delay_amended_witness :
    (0 < (7 : Int) ∧ submenuDelayOf (some 7) = 7) ∧
    ((-5 : Int) < 0 ∧ submenuDelayOf (some (-5)) = 0) :=
  ⟨⟨by decide, submenu_delay_amended.2.2.1 7 (by decide)⟩,
   ⟨by decide, submenu_delay_amended.2.2.2 (-5) (by decide)⟩⟩

/-! ## Visibility state of the registered menuboxes

`_setVisibility(b)` applies the transitions table; with the default
transitions it writes `style.visibility = "visible"` or `"hidden"`.  For the
claims about which boxes are open we record, per menubox id, whether the box
is in the open state (the style-string level of the default transitions table
is treated separately for claim C5, where `toggle` inspects it). -/

/-- Visibility of the menuboxes, keyed by menubox id. -/
def Vis : Type := String → Bool

/-- Update one box's visibility. -/
def setVis (i : String) (b : Bool) (v : Vis) : Vis :=
  fun x => if x = i then b else v x

theorem setVis_same (i : String) (b : Bool) (v : Vis) : setVis i b v i = b := by
  simp [setVis]

theorem setVis_other (i x : String) (b : Bool) (v : Vis) (h : x ≠ i) :
    setVis i b v x = v x := by
  simp [setVis, h]

/-- Hide every box in the list (in order). -/
def hideAll (ids : List String) (v : Vis) : Vis :=
  ids.foldl (fun v i => setVis i false v) v

theorem hideAll_true_mono (ids : List String) (v : Vis) (x : String)
    (h : hideAll ids v x = true) : v x = true := by
  induction ids generalizing v with
  | nil => exact h
  | cons i rest ih =>
    have h1 := ih (setVis i false v) h
    by_cases hx : x = i
    · subst hx; simp [setVis_same] at h1
    · rwa [setVis_other i x false v hx] at h1

theorem hideAll_false_pres (ids : List String) (v : Vis) (x : String)
    (h : v x = false) : hideAll ids v x = false := by
  cases hr : hideAll ids v x
  · rfl
  · exact absurd (hideAll_true_mono ids v x hr) (by simp [h])

theorem hideAll_mem (ids : List String) (v : Vis) (i : String) (h : i ∈ ids) :
    hideAll ids v i = false := by
  induction ids generalizing v with
  | nil => cases h
  | cons j rest ih =>
    rcases List.mem_cons.mp h with hj | hm
    · subst hj
      exact hideAll_false_pres rest (setVis i false v) i (setVis_same i false v)
    · exact ih (setVis j false v) hm

theorem hideAll_not_mem (ids : List String) (v : Vis) (x : String) (h : x ∉ ids) :
    hideAll ids v x = v x := by
  induction ids generalizing v with
  | nil => rfl
  | cons j rest ih =>
    have hx : x ≠ j := fun he => h (by simp [he])
    have hr : x ∉ rest := fun hm => h (List.mem_cons.mpr (Or.inr hm))
    rw [hideAll] at *
    calc (rest.foldl (fun v i => setVis i false v) (setVis j false v)) x
        = setVis j false v x := ih (setVis j false v) hr
      _ = v x := setVis_other j x false v hx

/-- `close()` with no argument (the default `closeSubmenus === true` test
fails): `_setVisibility(false)` on this box, then `this.parentMenubox?.close()`,
which recursively hides every ancestor (each ancestor is again closed with no
argument).  `anc` is the ancestor chain, nearest parent first. -/
def closeVis (i : String) (anc : List String) (v : Vis) : Vis :=
  hideAll anc (setVis i false v)

theorem closeVis_self (i : String) (anc : List String) (v : Vis) :
    closeVis i anc v i = false :=
  hideAll_false_pres anc (setVis i false v) i (setVis_same i false v)

theorem closeVis_anc (i : String) (anc : List String) (v : Vis) (a : String)
    (h : a ∈ anc) : closeVis i anc v a = false :=
  hideAll_mem anc (setVis i false v) a h

theorem closeVis_true_mono (i : String) (anc : List String) (v : Vis) (x : String)
    (h : closeVis i anc v x = true) : v x = true := by
  have h1 := hideAll_true_mono anc (setVis i false v) x h
  by_cases hx : x = i
  · subst hx; simp [setVis_same] at h1
  · rwa [setVis_other i x false v hx] at h1

theorem closeVis_false_pres (i : String) (anc : List String) (v : Vis) (x : String)
    (h : v x = false) : closeVis i anc v x = false := by
  cases hr : closeVis i anc v x
  · rfl
  · exact absurd (closeVis_true_mono i anc v x hr) (by simp [h])

theorem closeVis_unchanged (i : String) (anc : List String) (v : Vis) (x : String)
    (hx : x ≠ i) (ha : x ∉ anc) : closeVis i anc v x = v x := by
  rw [closeVis, hideAll_not_mem anc _ x ha, setVis_other i x false v hx]

/-! ## Claim C1: mutual exclusion of root menuboxes -/

/-- A registered menubox, as far as `popup` / `closeAll` inspect it: its id
and its ancestor chain of menubox ids (nearest parent first; roots have an
empty chain, `parentMenubox === undefined`). -/
structure BoxInfo where
  id : String
  ancestors : List String
deriving DecidableEq, Repr

/-- `Menubox2.closeAll()`: iterates over all registered instances and calls
`close()` (no argument) on each, hiding the box and its ancestors. -/
def closeAllVis (boxes : List BoxInfo) (v : Vis) : Vis :=
  boxes.foldl (fun v b => closeVis b.id b.ancestors v) v

theorem closeAllVis_true_mono (boxes : List BoxInfo) (v : Vis) (x : String)
    (h : closeAllVis boxes v x = true) : v x = true := by
  induction boxes generalizing v with
  | nil => exact h
  | cons b rest ih => exact closeVis_true_mono b.id b.ancestors v x (ih _ h)

theorem closeAllVis_false_pres (boxes : List BoxInfo) (v : Vis) (x : String)
    (h : v x = false) : closeAllVis boxes v x = false := by
  cases hr : closeAllVis boxes v x
  · rfl
  · exact absurd (closeAllVis_true_mono boxes v x hr) (by simp [h])

theorem closeAllVis_member (boxes : List BoxInfo) (v : Vis) (b : BoxInfo)
    (h : b ∈ boxes) : closeAllVis boxes v b.id = false := by
  induction boxes generalizing v with
  | nil => cases h
  | cons c rest ih =>
    rcases List.mem_cons.mp h with hc | hm
    · subst hc
      exact closeAllVis_false_pres rest _ b.id (closeVis_self b.id b.ancestors v)
    · exact ih _ hm

/-- `popup` (restricted to its effect on visibility): if this menubox has no
parent, `Menubox2.closeAll()` first; the method ends with
`this._setVisibility(true)`.  A submenu `popup` closes nothing. -/
def popupVis (boxes : List BoxInfo) (b : BoxInfo) (v : Vis) : Vis :=
  let v1 := if b.ancestors.isEmpty then closeAllVis boxes v else v
  setVis b.id true v1

/-- A sequence of `popup` calls. -/
def runPopups (boxes : List BoxInfo) (evts : List BoxInfo) (v : Vis) : Vis :=
  evts.foldl (fun v b => popupVis boxes b v) v

/-- The number of registered root menuboxes currently visible. -/
def visibleRootCount (boxes : List BoxInfo) (v : Vis) : Nat :=
  boxes.countP (fun c => c.ancestors.isEmpty && v c.id)

theorem countP_le_of_imp (l : List BoxInfo) (p q : BoxInfo → Bool)
    (h : ∀ c ∈ l, p c = true → q c = true) : l.countP p ≤ l.countP q := by
  induction l with
  | nil => simp
  | cons c rest ih =>
    have hr := ih (fun x hx => h x (List.mem_cons.mpr (Or.inr hx)))
    by_cases hp : p c = true
    · have hq := h c (List.mem_cons.mpr (Or.inl rfl)) hp
      simp [List.countP_cons, hp, hq]
      omega
    · have hp' : p c = false := by simpa using hp
      simp [List.countP_cons, hp']
      cases hq : q c <;> simp <;> omega

theorem countP_congr_mem (l : List BoxInfo) (p q : BoxInfo → Bool)
    (h : ∀ c ∈ l, p c = q c) : l.countP p = l.countP q := by
  induction l with
  | nil => simp
  | cons c rest ih =>
    have hr := ih (fun x hx => h x (List.mem_cons.mpr (Or.inr hx)))
    have hc := h c (List.mem_cons.mpr (Or.inl rfl))
    simp [List.countP_cons, hc, hr]

theorem countP_id_eq_le_one (boxes : List BoxInfo) (i : String)
    (hN : (boxes.map BoxInfo.id).Nodup) :
    boxes.countP (fun c => c.id == i) ≤ 1 := by
  induction boxes with
  | nil => simp
  | cons c rest ih =>
    have hN' : (rest.map BoxInfo.id).Nodup := (List.nodup_cons.mp hN).2
    have hcm : c.id ∉ rest.map BoxInfo.id := (List.nodup_cons.mp hN).1
    by_cases hc : c.id = i
    · have hz : rest.countP (fun x => x.id == i) = 0 := by
        rw [List.countP_eq_zero]
        intro x hx
        simp only [beq_iff_eq]
        intro he
        exact hcm (List.mem_map.mpr ⟨x, hx, by rw [he, hc]⟩)
      simp [List.countP_cons, hc, hz]
    · have hc' : (c.id == i) = false := by simpa using hc
      simp [List.countP_cons, hc']
      exact ih hN'

/-- Membership with equal ids forces equality under a `Nodup` id list. -/
theorem eq_of_mem_of_id_eq (boxes : List BoxInfo)
    (hN : (boxes.map BoxInfo.id).Nodup) (b c : BoxInfo)
    (hb : b ∈ boxes) (hc : c ∈ boxes) (h : c.id = b.id) : c = b := by
  induction boxes with
  | nil => cases hb
  | cons d rest ih =>
    have hN' : (rest.map BoxInfo.id).Nodup := (List.nodup_cons.mp hN).2
    have hdm : d.id ∉ rest.map BoxInfo.id := (List.nodup_cons.mp hN).1
    rcases List.mem_cons.mp hb with hb1 | hb2 <;> rcases List.mem_cons.mp hc with hc1 | hc2
    · rw [hc1, hb1]
    · subst hb1
      exact absurd (List.mem_map.mpr ⟨c, hc2, h⟩) hdm
    · subst hc1
      exact absurd (List.mem_map.mpr ⟨b, hb2, h.symm⟩) hdm
    · exact ih hN' hb2 hc2

/-- One `popup` call preserves "at most one visible root". -/
theorem popupVis_inv (boxes : List BoxInfo) (hN : (boxes.map BoxInfo.id).Nodup)
    (b : BoxInfo) (hb : b ∈ boxes) (v : Vis)
    (hv : visibleRootCount boxes v ≤ 1) :
    visibleRootCount boxes (popupVis boxes b v) ≤ 1 := by
  unfold popupVis
  by_cases hroot : b.ancestors.isEmpty
  · simp only [hroot, if_pos]
    calc visibleRootCount boxes (setVis b.id true (closeAllVis boxes v))
        ≤ boxes.countP (fun c => c.id == b.id) := by
          apply countP_le_of_imp
          intro c hc hp
          simp only [Bool.and_eq_true] at hp
          by_cases hid : c.id = b.id
          · simpa using hid
          · rw [setVis_other b.id c.id true _ hid] at hp
            exact absurd hp.2 (by simp [closeAllVis_member boxes v c hc])
      _ ≤ 1 := countP_id_eq_le_one boxes b.id hN
  · simp only [hroot, if_neg, Bool.not_eq_true]
    have : visibleRootCount boxes (setVis b.id true v) = visibleRootCount boxes v := by
      apply countP_congr_mem
      intro c hc
      by_cases hid : c.id = b.id
      · have hcb : c = b := eq_of_mem_of_id_eq boxes hN b c hb hc hid
        subst hcb
        simp [hroot]
      · rw [setVis_other b.id c.id true v hid]
    simpa [this] using hv

/-- **C1.** For every sequence of `popup` calls on registered menuboxes, at
most one root menubox is visible at any time: the running state keeps the
"at most one visible root" invariant, a root `popup` first closes every other
menubox and then shows the callee, and a submenu `popup` changes no other
box's visibility. -/
theorem popup_root_mutual_exclusion (boxes : List BoxInfo)
    (hN : (boxes.map BoxInfo.id).Nodup)
    (evts : List BoxInfo) (hEvts : ∀ e ∈ evts, e ∈ boxes)
    (v : Vis) (hv : visibleRootCount boxes v ≤ 1) (b : BoxInfo) (_hb : b ∈ boxes) :
    visibleRootCount boxes (runPopups boxes evts v) ≤ 1 ∧
    (b.ancestors.isEmpty = true →
      popupVis boxes b v b.id = true ∧
      ∀ c ∈ boxes, c.id ≠ b.id → popupVis boxes b v c.id = false) ∧
    (b.ancestors.isEmpty = false →
      ∀ x, x ≠ b.id → popupVis boxes b v x = v x) := by
  refine ⟨?_, fun hroot => ⟨?_, fun c hc hcid => ?_⟩, fun hsub x hx => ?_⟩
  · induction evts generalizing v with
    | nil => exact hv
    | cons e rest ih =>
      exact ih (fun x hx => hEvts x (List.mem_cons.mpr (Or.inr hx))) _
        (popupVis_inv boxes hN e (hEvts e (List.mem_cons.mpr (Or.inl rfl))) v hv)
  · simp [popupVis, setVis_same]
  · rw [popupVis]
    simp only [hroot, if_pos]
    rw [setVis_other b.id c.id true _ hcid]
    exact closeAllVis_member boxes v c hc
  · rw [popupVis]
    simp only [hsub, Bool.false_eq_true, if_neg]
    exact setVis_other b.id x true v hx

/-- Witness for C1: two root boxes and one submenu box; popping up root "m1",
then the submenu "m1.x", then root "m2" keeps at most one root visible. -/
theorem popup_root_mutual_exclusion_witness :
    (([⟨"m1", []⟩, ⟨"m2", []⟩, ⟨"m1.x", ["m1"]⟩] : List BoxInfo).map BoxInfo.id).Nodup ∧
    visibleRootCount [⟨"m1", []⟩, ⟨"m2", []⟩, ⟨"m1.x", ["m1"]⟩]
      (runPopups [⟨"m1", []⟩, ⟨"m2", []⟩, ⟨"m1.x", ["m1"]⟩]
        [⟨"m1", []⟩, ⟨"m1.x", ["m1"]⟩, ⟨"m2", []⟩] (fun _ => false)) ≤ 1 :=
  ⟨by decide,
   (popup_root_mutual_exclusion [⟨"m1", []⟩, ⟨"m2", []⟩, ⟨"m1.x", ["m1"]⟩]
      (by decide)
      [⟨"m1", []⟩, ⟨"m1.x", ["m1"]⟩, ⟨"m2", []⟩] (by decide)
      (fun _ => false) (by decide) ⟨"m1", []⟩ (by decide)).1⟩

/-! ## Claim C3: `close(true)` versus `close(false)` on a submenu

The submenu structure below a menubox is a finite tree: each menubox has the
list of submenu menuboxes owned by its items (in item order).  `closeSubmenus`
walks this tree; `close` additionally knows the ancestor chain (in the source
through the `parentMenubox` back-references). -/

/-- A menubox together with its submenu subtree: its id and the submenus of
its items, in item order. -/
inductive MTree where
  | mk (id : String) (subs : List MTree)
deriving Repr

/-- The menubox's own id. -/
def MTree.idOf : MTree → String
  | .mk i _ => i

mutual

/-- `closeSubmenus()` (its effect on visibility; it also clears the pending
submenu hover timer, which is part of the timer model of claim C6): for every
item with a submenu it runs `submenu.closeSubmenus(); submenu.close(true)`,
and `close(true)` is `_setVisibility(false)` followed again by
`closeSubmenus()`. -/
def closeSubmenusT : MTree → Vis → Vis
  | .mk _ subs, v => closeSubsList subs v

def closeSubsList : List MTree → Vis → Vis
  | [], v => v
  | s :: rest, v =>
      closeSubsList rest (closeSubmenusT s (setVis s.idOf false (closeSubmenusT s v)))

end

mutual

/-- All menubox ids in a subtree (root first, then the items' subtrees in
order). -/
def MTree.ids : MTree → List String
  | .mk i subs => i :: idsList subs

def idsList : List MTree → List String
  | [] => []
  | s :: rest => s.ids ++ idsList rest

end

/-- The ids of the strict descendants. -/
def MTree.descIds : MTree → List String
  | .mk _ subs => idsList subs

theorem MTree.ids_eq (t : MTree) : t.ids = t.idOf :: t.descIds := by
  cases t with
  | mk i subs => rw [MTree.ids, MTree.idOf, MTree.descIds]

/-- `close(closeSubs)`: `_setVisibility(false)`, then — only if the argument
is literally `true` — `this.closeSubmenus()`; otherwise
`this.parentMenubox?.close()`, which cascades up the ancestor chain `anc`
(nearest parent first). -/
def closeT (t : MTree) (anc : List String) (closeSubs : Bool) (v : Vis) : Vis :=
  let v1 := setVis t.idOf false v
  if closeSubs then closeSubmenusT t v1 else hideAll anc v1

mutual

theorem closeSubmenusT_true_mono : ∀ (t : MTree) (v : Vis) (x : String),
    closeSubmenusT t v x = true → v x = true
  | .mk i subs, v, x, h => by
      rw [closeSubmenusT] at h
      exact closeSubsList_true_mono subs v x h

theorem closeSubsList_true_mono : ∀ (l : List MTree) (v : Vis) (x : String),
    closeSubsList l v x = true → v x = true
  | [], v, x, h => by rwa [closeSubsList] at h
  | s :: rest, v, x, h => by
      rw [closeSubsList] at h
      have h1 := closeSubsList_true_mono rest _ x h
      have h2 := closeSubmenusT_true_mono s _ x h1
      by_cases hx : x = s.idOf
      · rw [hx, setVis_same] at h2
        exact absurd h2 (by simp)
      · rw [setVis_other s.idOf x false _ hx] at h2
        exact closeSubmenusT_true_mono s v x h2

end

theorem closeSubmenusT_false_pres (t : MTree) (v : Vis) (x : String)
    (h : v x = false) : closeSubmenusT t v x = false := by
  cases hr : closeSubmenusT t v x
  · rfl
  · exact absurd (closeSubmenusT_true_mono t v x hr) (by simp [h])

theorem closeSubsList_false_pres (l : List MTree) (v : Vis) (x : String)
    (h : v x = false) : closeSubsList l v x = false := by
  cases hr : closeSubsList l v x
  · rfl
  · exact absurd (closeSubsList_true_mono l v x hr) (by simp [h])

mutual

theorem closeSubmenusT_not_mem : ∀ (t : MTree) (v : Vis) (x : String),
    x ∉ t.descIds → closeSubmenusT t v x = v x
  | .mk i subs, v, x, h => by
      rw [closeSubmenusT]
      rw [MTree.descIds] at h
      exact closeSubsList_not_mem subs v x h

theorem closeSubsList_not_mem : ∀ (l : List MTree) (v : Vis) (x : String),
    x ∉ idsList l → closeSubsList l v x = v x
  | [], v, x, h => by rw [closeSubsList]
  | s :: rest, v, x, h => by
      rw [idsList] at h
      have hs : x ∉ s.ids := fun hm => h (List.mem_append.mpr (Or.inl hm))
      have hr : x ∉ idsList rest := fun hm => h (List.mem_append.mpr (Or.inr hm))
      rw [MTree.ids_eq] at hs
      have hx : x ≠ s.idOf := fun he => hs (by rw [he]; exact List.mem_cons_self _ _)
      have hd : x ∉ s.descIds := fun hm => hs (List.mem_cons.mpr (Or.inr hm))
      rw [closeSubsList]
      rw [closeSubsList_not_mem rest _ x hr,
          closeSubmenusT_not_mem s _ x hd,
          setVis_other s.idOf x false _ hx,
          closeSubmenusT_not_mem s v x hd]

end

mutual

theorem closeSubmenusT_mem : ∀ (t : MTree) (v : Vis) (i : String),
    i ∈ t.descIds → closeSubmenusT t v i = false
  | .mk j subs, v, i, h => by
      rw [closeSubmenusT]
      rw [MTree.descIds] at h
      exact closeSubsList_mem subs v i h

theorem closeSubsList_mem : ∀ (l : List MTree) (v : Vis) (i : String),
    i ∈ idsList l → closeSubsList l v i = false
  | [], v, i, h => by rw [idsList] at h; cases h
  | s :: rest, v, i, h => by
      rw [idsList] at h
      rw [closeSubsList]
      rcases List.mem_append.mp h with hs | hr
      · apply closeSubsList_false_pres
        rw [MTree.ids_eq] at hs
        rcases List.mem_cons.mp hs with he | hd
        · apply closeSubmenusT_false_pres
          rw [he]
          exact setVis_same s.idOf false _
        · exact closeSubmenusT_mem s _ i hd
      · exact closeSubsList_mem rest _ i hr

end

/-- **C3.** On a menubox with ancestor chain `anc`, `close(true)` hides the
box and every descendant submenu and leaves every ancestor (indeed every box
outside the subtree) untouched, while `close(false)` hides the box and every
ancestor up to the root and leaves every other box untouched. -/
theorem close_subtree_vs_ancestors (t : MTree) (anc : List String) (v : Vis)
    (hanc : ∀ a ∈ anc, a ∉ t.ids) :
    (∀ i ∈ t.ids, closeT t anc true v i = false) ∧
    (∀ a ∈ anc, closeT t anc true v a = v a) ∧
    (∀ x, x ∉ t.ids → closeT t anc true v x = v x) ∧
    (closeT t anc false v t.idOf = false) ∧
    (∀ a ∈ anc, closeT t anc false v a = false) ∧
    (∀ x, x ∉ t.idOf :: anc → closeT t anc false v x = v x) := by
  have hout : ∀ x, x ∉ t.ids → closeT t anc true v x = v x := by
    intro x hx
    rw [MTree.ids_eq] at hx
    have hx1 : x ≠ t.idOf := fun he => hx (by rw [he]; exact List.mem_cons_self _ _)
    have hx2 : x ∉ t.descIds := fun hm => hx (List.mem_cons.mpr (Or.inr hm))
    unfold closeT
    simp only [if_pos]
    rw [closeSubmenusT_not_mem t _ x hx2, setVis_other t.idOf x false v hx1]
  refine ⟨?_, fun a ha => hout a (hanc a ha), hout, ?_, fun a ha => ?_, fun x hx => ?_⟩
  · intro i hi
    rw [MTree.ids_eq] at hi
    unfold closeT
    simp only [if_pos]
    rcases List.mem_cons.mp hi with he | hd
    · apply closeSubmenusT_false_pres
      rw [he]
      exact setVis_same t.idOf false v
    · exact closeSubmenusT_mem t _ i hd
  · unfold closeT
    simp only [Bool.false_eq_true, if_neg]
    exact hideAll_false_pres anc _ t.idOf (setVis_same t.idOf false v)
  · unfold closeT
    simp only [Bool.false_eq_true, if_neg]
    exact hideAll_mem anc _ a ha
  · have hx1 : x ≠ t.idOf := fun he => hx (by rw [he]; exact List.mem_cons_self _ _)
    have hx2 : x ∉ anc := fun hm => hx (List.mem_cons.mpr (Or.inr hm))
    show hideAll anc (setVis t.idOf false v) x = v x
    rw [hideAll_not_mem anc _ x hx2, setVis_other t.idOf x false v hx1]

/-- Witness for C3: the submenu `"m.x"` (with its own submenu `"m.x.y"`)
below the root `"m"`; starting from all-visible, `close(true)` hides the
subtree and keeps `"m"` visible, `close(false)` hides `"m.x"` and `"m"` but
keeps `"m.x.y"` visible. -/
theorem close_subtree_vs_ancestors_witness :
    (∀ a ∈ ["m"], a ∉ (MTree.mk "m.x" [MTree.mk "m.x.y" []]).ids) ∧
    (∀ i ∈ (MTree.mk "m.x" [MTree.mk "m.x.y" []]).ids,
      closeT (MTree.mk "m.x" [MTree.mk "m.x.y" []]) ["m"] true (fun _ => true) i = false) ∧
    (∀ a ∈ ["m"],
      closeT (MTree.mk "m.x" [MTree.mk "m.x.y" []]) ["m"] false (fun _ => true) a = false) :=
  ⟨by decide,
   (close_subtree_vs_ancestors (MTree.mk "m.x" [MTree.mk "m.x.y" []]) ["m"]
      (fun _ => true) (by decide)).1,
   (close_subtree_vs_ancestors (MTree.mk "m.x" [MTree.mk "m.x.y" []]) ["m"]
      (fun _ => true) (by decide)).2.2.2.2.1⟩

/-! ## Claim C5: `toggle` and the visibility style string

`toggle` decides between `popup` and `close` by reading
`this.element.style.visibility !== "visible"`.  What `popup`/`close` write
into `style.visibility` comes from the transitions table,
`Object.assign({ visibility: ["hidden", "visible"] }, options.transistions)`:
a `[closed-value, open-value]` pair of style strings that a definition may
override. -/

/-- The `visibility` entry of a menubox's transitions table. -/
structure VisTransition where
  hiddenVal : String
  visibleVal : String
deriving DecidableEq, Repr

/-- The default `{ visibility: ["hidden", "visible"] }`. -/
def defaultVisTransition : VisTransition :=
  ⟨"hidden", "visible"⟩

/-- `_setVisibility(visible)` restricted to the `visibility` style dimension:
writes the pair entry selected by `(visible) ? 1 : 0`. -/
def setVisibilityStyle (tr : VisTransition) (visible : Bool) : String :=
  if visible then tr.visibleVal else tr.hiddenVal

/-- `toggle` as far as this box's own `style.visibility` is concerned:
`result = (style.visibility !== "visible")`; if `result` then `popup` (which
ends in `_setVisibility(true)`) else `close(true)` (which starts with
`_setVisibility(false)`); `result` is returned.  Gives the new
`style.visibility` and the returned boolean. -/
def toggleStyle (tr : VisTransition) (styleVisibility : String) : String × Bool :=
  let result := styleVisibility != "visible"
  if result then (setVisibilityStyle tr true, true)
  else (setVisibilityStyle tr false, false)

/-- **C5, counterexample.** The claim quantifies over every menubox, but a
menubox whose transitions override the `visibility` pair's open value (here
`["hidden", "shown"]`) is never recognised as open by `toggle`: starting from
the closed state `"hidden"`, two consecutive `toggle` calls leave the style
at `"shown"` instead of restoring `"hidden"`. -/
theorem toggle_involutive_cex :
    (toggleStyle ⟨"hidden", "shown"⟩
        (toggleStyle ⟨"hidden", "shown"⟩ "hidden").1).1 = "shown" ∧
    "shown" ≠ "hidden" := by
  constructor
  · rfl
  · decide

/-- **C5, amended.** For every menubox whose visibility transition's open
value is the string `"visible"` (as in the default transitions table) and
every reachable visibility style (one of the pair's two values), two
consecutive `toggle` calls restore the original style; moreover each call
returns `true` exactly when it popped the box up (leaving the open style) and
`false` when it closed it (leaving the closed style). -/
theorem toggle_involutive_amended (tr : VisTransition) (s : String)
    (hvis : tr.visibleVal = "visible")
    (hs : s = tr.hiddenVal ∨ s = tr.visibleVal) :
    (toggleStyle tr (toggleStyle tr s).1).1 = s ∧
    ((toggleStyle tr s).2 = true → (toggleStyle tr s).1 = tr.visibleVal) ∧
    ((toggleStyle tr s).2 = false → (toggleStyle tr s).1 = tr.hiddenVal) := by
  obtain ⟨h0, v0⟩ := tr
  simp only at hvis hs
  subst hvis
  have heval : ∀ x : String, toggleStyle ⟨h0, "visible"⟩ x =
      if x = "visible" then (h0, false) else ("visible", true) := by
    intro x
    by_cases hx : x = "visible"
    · simp [toggleStyle, setVisibilityStyle, hx]
    · have hb : (x != "visible") = true := by simpa using hx
      simp [toggleStyle, setVisibilityStyle, hb, hx]
  refine ⟨?_, ?_, ?_⟩
  · rw [heval s]
    by_cases hx : s = "visible"
    · rw [if_pos hx]
      show (toggleStyle ⟨h0, "visible"⟩ h0).1 = s
      rw [heval h0]
      by_cases hh : h0 = "visible"
      · rw [if_pos hh]
        exact hh.trans hx.symm
      · rw [if_neg hh]
        exact hx.symm
    · rw [if_neg hx]
      show (toggleStyle ⟨h0, "visible"⟩ "visible").1 = s
      rw [heval "visible", if_pos rfl]
      rcases hs with hhid | hvis2
      · exact hhid.symm
      · exact absurd hvis2 hx
  · rw [heval s]
    by_cases hx : s = "visible"
    · rw [if_pos hx]
      intro hfalse
      simp at hfalse
    · rw [if_neg hx]
      intro _
      rfl
  · rw [heval s]
    by_cases hx : s = "visible"
    · rw [if_pos hx]
      intro _
      rfl
    · rw [if_neg hx]
      intro hfalse
      simp at hfalse

/-- Witness for C5 (amended): with the default transitions, toggling twice
from `"hidden"` returns to `"hidden"`. -/
theorem toggle_involutive_amended_witness :
    defaultVisTransition.visibleVal = "visible" ∧
    (toggleStyle defaultVisTransition
      (toggleStyle defaultVisTransition "hidden").1).1 = "hidden" :=
  ⟨by decide,
   (toggle_involutive_amended defaultVisTransition "hidden" (by decide)
      (Or.inl (by decide))).1⟩

/-! ## Claim C7: viewport clamping in `popup`

Lines 517-531 of `popup`.  Pixel quantities are integers, so the
`Math.round` calls are the identity and are omitted.  The box is positioned
with `style.left` / `style.top` in document coordinates; its
`getBoundingClientRect` left/top equal the style position minus the scroll
offsets (`scrollPos` is `{0,0}` for `position: fixed` boxes, which makes the
same formulas cover both cases). -/

/-- The geometry read by `popup` just before the clamping step. -/
structure PopupGeom where
  styleLeft : Int
  styleTop : Int
  width : Int
  height : Int
  scrollLeft : Int
  scrollTop : Int
  viewportWidth : Int
  viewportHeight : Int
  itemsHeight : Int
deriving DecidableEq, Repr

/-- The outcome of the clamping step: the final style position, plus the
height style and `overflowY: scroll` flag applied to the internal
`div.menubox-items` element (`popup` resets both to `null` beforehand). -/
structure PopupPlacement where
  left : Int
  top : Int
  itemsHeightStyle : Option Int
  itemsOverflowScroll : Bool
deriving DecidableEq, Repr

/-- The `/* prevent menubox exceeds viewport */` block of `popup`:
if `elementRect.right > visualViewport.width`, set
`style.left = max(scrollPos.left, scrollPos.left + viewport.width - rect.width)`;
if `elementRect.bottom > visualViewport.height`, set
`style.top = max(scrollPos.top, scrollPos.top + viewport.height - rect.height)`,
and if additionally `rect.height > viewport.height`, set the item list's
height to `itemsElement.offsetHeight - (rect.height - viewport.height)` and
`overflowY = "scroll"`. -/
def clampToViewport (g : PopupGeom) : PopupPlacement :=
  if (g.styleTop - g.scrollTop) + g.height > g.viewportHeight then
    { left := if (g.styleLeft - g.scrollLeft) + g.width > g.viewportWidth
        then max g.scrollLeft (g.scrollLeft + g.viewportWidth - g.width)
        else g.styleLeft,
      top := max g.scrollTop (g.scrollTop + g.viewportHeight - g.height),
      itemsHeightStyle := if g.viewportHeight < g.height
        then some (g.itemsHeight - (g.height - g.viewportHeight)) else none,
      itemsOverflowScroll := decide (g.viewportHeight < g.height) }
  else
    { left := if (g.styleLeft - g.scrollLeft) + g.width > g.viewportWidth
        then max g.scrollLeft (g.scrollLeft + g.viewportWidth - g.width)
        else g.styleLeft,
      top := g.styleTop,
      itemsHeightStyle := none,
      itemsOverflowScroll := false }

/-- **C7.** If the natural rectangle overflows the viewport on the right, the
left position is pulled in by exactly the overflow amount but never left of
the scroll origin, so the box fits horizontally whenever it is no wider than
the viewport; symmetrically for the bottom edge; and when the box is taller
than the viewport, the item list's height is reduced by the vertical overflow
(making the shrunken box exactly viewport-high) and vertical scrolling is
enabled on it. -/
theorem popup_viewport_clamp (g : PopupGeom) :
    ((g.styleLeft - g.scrollLeft) + g.width > g.viewportWidth →
      (clampToViewport g).left =
        max g.scrollLeft
          (g.styleLeft - ((g.styleLeft - g.scrollLeft) + g.width - g.viewportWidth)) ∧
      (clampToViewport g).left ≥ g.scrollLeft ∧
      (g.width ≤ g.viewportWidth →
        ((clampToViewport g).left - g.scrollLeft) + g.width ≤ g.viewportWidth)) ∧
    ((g.styleTop - g.scrollTop) + g.height > g.viewportHeight →
      (clampToViewport g).top =
        max g.scrollTop
          (g.styleTop - ((g.styleTop - g.scrollTop) + g.height - g.viewportHeight)) ∧
      (clampToViewport g).top ≥ g.scrollTop ∧
      (g.height ≤ g.viewportHeight →
        ((clampToViewport g).top - g.scrollTop) + g.height ≤ g.viewportHeight) ∧
      (g.viewportHeight < g.height →
        (clampToViewport g).itemsHeightStyle =
          some (g.itemsHeight - (g.height - g.viewportHeight)) ∧
        (clampToViewport g).itemsOverflowScroll = true ∧
        (g.height - g.itemsHeight) + (g.itemsHeight - (g.height - g.viewportHeight))
          = g.viewportHeight)) := by
  have hleft : (clampToViewport g).left =
      if (g.styleLeft - g.scrollLeft) + g.width > g.viewportWidth
      then max g.scrollLeft (g.scrollLeft + g.viewportWidth - g.width)
      else g.styleLeft := by
    unfold clampToViewport
    split <;> rfl
  have htop : (clampToViewport g).top =
      if (g.styleTop - g.scrollTop) + g.height > g.viewportHeight
      then max g.scrollTop (g.scrollTop + g.viewportHeight - g.height)
      else g.styleTop := by
    unfold clampToViewport
    split <;> rfl
  have hih : (clampToViewport g).itemsHeightStyle =
      if (g.styleTop - g.scrollTop) + g.height > g.viewportHeight then
        (if g.viewportHeight < g.height
         then some (g.itemsHeight - (g.height - g.viewportHeight)) else none)
      else none := by
    unfold clampToViewport
    split <;> rfl
  have hos : (clampToViewport g).itemsOverflowScroll =
      if (g.styleTop - g.scrollTop) + g.height > g.viewportHeight
      then decide (g.viewportHeight < g.height) else false := by
    unfold clampToViewport
    split <;> rfl
  constructor
  · intro hovl
    rw [hleft, if_pos hovl]
    refine ⟨by omega, by omega, fun hw => by omega⟩
  · intro hovt
    rw [htop, if_pos hovt]
    refine ⟨by omega, by omega, fun hh => by omega, fun hh => ?_⟩
    rw [hih, if_pos hovt, if_pos hh, hos, if_pos hovt]
    refine ⟨rfl, by simpa using hh, by omega⟩

/-- Witness for C7: a 500×900 box at document position (400, 300) with scroll
origin (0, 0) in an 800×600 viewport overflows both edges; it is clamped to
(300, 0) with the item list shrunk from 880 to 580 and given scrolling. -/
theorem popup_viewport_clamp_witness :
    ((400 : Int) - 0) + 500 > 800 ∧ ((300 : Int) - 0) + 900 > 600 ∧
    clampToViewport ⟨400, 300, 500, 900, 0, 0, 800, 600, 880⟩ =
      ⟨300, 0, some 580, true⟩ := by
  refine ⟨by decide, by decide, ?_⟩
  have h1 := (popup_viewport_clamp ⟨400, 300, 500, 900, 0, 0, 800, 600, 880⟩).1
    (by decide)
  have h2 := (popup_viewport_clamp ⟨400, 300, 500, 900, 0, 0, 800, 600, 880⟩).2
    (by decide)
  rfl

/-! ## Claim C6: the single pending submenu hover-open timer

The only asynchrony in the source is `setTimeout` in the item's
`onmouseenter` handler.  We model the JS event loop's pending timeouts as an
explicit list, `Menubox2.currentSubmenuTimerId` as an `Option Nat` (it starts
out `undefined` and is only ever overwritten with fresh, positive — hence
truthy — timer ids), and record every submenu popped up by a fired timer
callback in a log. -/

/-- One pending `setTimeout` entry: its timer id and the id of the submenu
that its callback would `popup`. -/
structure ScheduledTimer where
  timerId : Nat
  submenuId : String
deriving DecidableEq, Repr

/-- The timer-related global state. -/
structure TimerState where
  scheduled : List ScheduledTimer
  currentId : Option Nat
  nextId : Nat
  opened : List String
deriving DecidableEq, Repr

/-- Before any menubox interaction: no pending timeout,
`Menubox2.currentSubmenuTimerId` undefined, no submenu opened by a timer. -/
def initTimerState : TimerState :=
  ⟨[], none, 1, []⟩

/-- `clearTimeout(id)`: discards the pending timeout with that id, if any. -/
def clearTimeout (id : Nat) (ts : TimerState) : TimerState :=
  { ts with scheduled := ts.scheduled.filter (fun t => t.timerId != id) }

/-- `if (Menubox2.currentSubmenuTimerId) { clearTimeout(Menubox2.currentSubmenuTimerId); }`
— this guard appears both in `closeSubmenus()` and in the menubox element's
`onmouseleave` handler; timer ids are positive, hence truthy whenever the
variable has been set. -/
def clearCurrentTimer (ts : TimerState) : TimerState :=
  match ts.currentId with
  | some id => clearTimeout id ts
  | none => ts

/-- The interactions that touch the timer state. -/
inductive TimerEvent where
  | mouseenterItem (submenu : Option String)
  | mouseleaveBox
  | fire (id : Nat)
deriving DecidableEq, Repr

/-- An item element's `onmouseenter` handler: `this.menubox.closeSubmenus()`
(whose first statement clears the pending submenu timer; its visibility
effect is the `closeSubmenusT` model above) and then, if the item has a
submenu, `Menubox2.currentSubmenuTimerId = setTimeout(() =>
submenu.popup(...), delay)`. -/
def stepMouseenter (submenu : Option String) (ts : TimerState) : TimerState :=
  let ts1 := clearCurrentTimer ts
  match submenu with
  | some sub =>
      { ts1 with
        scheduled := ts1.scheduled ++ [⟨ts1.nextId, sub⟩],
        currentId := some ts1.nextId,
        nextId := ts1.nextId + 1 }
  | none => ts1

/-- The menubox element's `onmouseleave` handler. -/
def stepMouseleave (ts : TimerState) : TimerState :=
  clearCurrentTimer ts

/-- The JS event loop firing a due timeout: only a still-pending (not
cleared) timeout can fire; its callback pops the submenu up. -/
def stepFire (id : Nat) (ts : TimerState) : TimerState :=
  match ts.scheduled.find? (fun t => t.timerId == id) with
  | some t =>
      { ts with
        scheduled := ts.scheduled.filter (fun x => x.timerId != id),
        opened := ts.opened ++ [t.submenuId] }
  | none => ts

def stepTimer (e : TimerEvent) (ts : TimerState) : TimerState :=
  match e with
  | .mouseenterItem sub => stepMouseenter sub ts
  | .mouseleaveBox => stepMouseleave ts
  | .fire id => stepFire id ts

def runTimer (evts : List TimerEvent) (ts : TimerState) : TimerState :=
  evts.foldl (fun ts e => stepTimer e ts) ts

/-- The single-pending-timer invariant: at most one timeout is pending, and
any pending timeout is the one recorded in `currentSubmenuTimerId`. -/
def timerInvB (ts : TimerState) : Bool :=
  decide (ts.scheduled.length ≤ 1) &&
  ts.scheduled.all (fun t => ts.currentId == some t.timerId)

theorem clearCurrentTimer_scheduled_nil (ts : TimerState)
    (hinv : timerInvB ts = true) : (clearCurrentTimer ts).scheduled = [] := by
  unfold timerInvB at hinv
  rw [Bool.and_eq_true] at hinv
  have hall := List.all_eq_true.mp hinv.2
  unfold clearCurrentTimer
  cases hc : ts.currentId with
  | none =>
    cases hs : ts.scheduled with
    | nil => rfl
    | cons t rest =>
      have hx := hall t (by rw [hs]; exact List.mem_cons_self _ _)
      rw [hc] at hx
      simp at hx
  | some id =>
    unfold clearTimeout
    simp only
    rw [List.filter_eq_nil_iff]
    intro t ht
    have hx := hall t ht
    rw [hc] at hx
    have hid : id = t.timerId := by simpa using hx
    simp [hid]

theorem stepTimer_inv (e : TimerEvent) (ts : TimerState)
    (hinv : timerInvB ts = true) : timerInvB (stepTimer e ts) = true := by
  unfold timerInvB at hinv
  rw [Bool.and_eq_true] at hinv
  have hall := List.all_eq_true.mp hinv.2
  cases e with
  | mouseenterItem sub =>
    have hnil := clearCurrentTimer_scheduled_nil ts (by
      unfold timerInvB
      rw [Bool.and_eq_true]
      exact hinv)
    show timerInvB (stepMouseenter sub ts) = true
    unfold stepMouseenter
    cases sub with
    | some s =>
      simp only
      unfold timerInvB
      rw [hnil]
      simp
    | none =>
      simp only
      unfold timerInvB
      rw [hnil]
      simp
  | mouseleaveBox =>
    have hnil := clearCurrentTimer_scheduled_nil ts (by
      unfold timerInvB
      rw [Bool.and_eq_true]
      exact hinv)
    show timerInvB (stepMouseleave ts) = true
    unfold stepMouseleave
    unfold timerInvB
    rw [hnil]
    have hcur : (clearCurrentTimer ts).currentId = ts.currentId := by
      unfold clearCurrentTimer clearTimeout
      cases hc : ts.currentId
      · exact hc
      · rfl
    simp
  | fire id =>
    show timerInvB (stepFire id ts) = true
    unfold stepFire
    cases hf : ts.scheduled.find? (fun t => t.timerId == id) with
    | none =>
      unfold timerInvB
      rw [Bool.and_eq_true]
      exact ⟨by simpa using hinv.1, hinv.2⟩
    | some t =>
      simp only
      unfold timerInvB
      rw [Bool.and_eq_true]
      constructor
      · simp only [decide_eq_true_eq]
        calc (ts.scheduled.filter (fun x => x.timerId != id)).length
            ≤ ts.scheduled.length := List.length_filter_le _ _
          _ ≤ 1 := by simpa using hinv.1
      · rw [List.all_eq_true]
        intro x hx
        exact hall x (List.mem_of_mem_filter hx)

theorem runTimer_inv (evts : List TimerEvent) (ts : TimerState)
    (hinv : timerInvB ts = true) : timerInvB (runTimer evts ts) = true := by
  induction evts generalizing ts with
  | nil => exact hinv
  | cons e rest ih => exact ih _ (stepTimer_inv e ts hinv)

theorem stepFire_of_nil (id : Nat) (ts : TimerState)
    (h : ts.scheduled = []) : stepFire id ts = ts := by
  unfold stepFire
  rw [h]
  rfl

/-- **C6.** From any state satisfying the single-pending-timer invariant
(in particular from the initial state), every interaction sequence preserves
the invariant — arming a new submenu-open delay supersedes any previously
pending one instead of queueing a second one — and hovering an item with a
submenu and then leaving the menubox before the timer fires cancels the
pending open: no subsequent timer firing opens anything. -/
theorem submenu_timer_single_pending (evts : List TimerEvent) (ts : TimerState)
    (hinv : timerInvB ts = true) (sub : String) (fires : List TimerEvent)
    (hfires : ∀ e ∈ fires, ∃ id, e = TimerEvent.fire id) :
    timerInvB (runTimer evts ts) = true ∧
    (runTimer (.mouseenterItem (some sub) :: .mouseleaveBox :: fires) ts).opened
      = ts.opened := by
  refine ⟨runTimer_inv evts ts hinv, ?_⟩
  have h1 : timerInvB (stepMouseenter (some sub) ts) = true :=
    stepTimer_inv (.mouseenterItem (some sub)) ts hinv
  have h2 : (stepMouseleave (stepMouseenter (some sub) ts)).scheduled = [] :=
    clearCurrentTimer_scheduled_nil _ h1
  have hop1 : (stepMouseenter (some sub) ts).opened = ts.opened := by
    unfold stepMouseenter clearCurrentTimer clearTimeout
    cases ts.currentId <;> rfl
  have hop2 : (stepMouseleave (stepMouseenter (some sub) ts)).opened
      = (stepMouseenter (some sub) ts).opened := by
    unfold stepMouseleave clearCurrentTimer clearTimeout
    cases (stepMouseenter (some sub) ts).currentId <;> rfl
  show (runTimer fires (stepMouseleave (stepMouseenter (some sub) ts))).opened
      = ts.opened
  rw [← hop1, ← hop2]
  generalize hgen : stepMouseleave (stepMouseenter (some sub) ts) = ts2 at h2
  clear hgen hop1 hop2 h1
  induction fires generalizing ts2 with
  | nil => rfl
  | cons e rest ih =>
    obtain ⟨id, he⟩ := hfires e (List.mem_cons_self _ _)
    subst he
    show (runTimer rest (stepFire id ts2)).opened = ts2.opened
    rw [stepFire_of_nil id ts2 h2]
    exact ih (fun x hx => hfires x (List.mem_cons.mpr (Or.inr hx))) ts2 h2

/-- Witness for C6: from the initial state, hovering the submenu item "m.x",
leaving the box, and then letting the (cleared) timer id 1 fire leaves the
invariant intact and opens nothing. -/
theorem submenu_timer_single_pending_witness :
    timerInvB initTimerState = true ∧
    timerInvB (runTimer [.mouseenterItem (some "m.x"), .mouseleaveBox, .fire 1]
      initTimerState) = true ∧
    (runTimer [.mouseenterItem (some "m.x"), .mouseleaveBox, .fire 1]
      initTimerState).opened = initTimerState.opened :=
  ⟨by decide,
   (submenu_timer_single_pending
      [.mouseenterItem (some "m.x"), .mouseleaveBox, .fire 1] initTimerState
      (by decide) "m.x" [.fire 1]
      (by intro e he; simp only [List.mem_singleton] at he; exact ⟨1, he⟩)).1,
   (submenu_timer_single_pending [] initTimerState (by decide) "m.x" [.fire 1]
      (by intro e he; simp only [List.mem_singleton] at he; exact ⟨1, he⟩)).2⟩

/-! ## Click dispatch, the items map, and `getCheckedItems`

The model for claims C2, C4 and C10.  Item labels and extra CSS classes do
not influence any claim and are omitted; an item-level callback function and
the menubox-level callback function are represented by numeric ids, and a
callback invocation is logged as the pair (callback id, clicked item's key).
The `checked` / `enabled` classes on the item elements (see the class-list
model above) are tracked as per-key boolean maps. -/

/-- Truthiness of an item definition's `key` (`string | undefined`): a
non-empty string.  This is both the renderer's `!!itemProps.key` test, the
constructor's `typeof key === "string" && key !== ""` test and `__setItems`'
`if (itemDef.key)` test. -/
def keyTruthy : Option String → Bool
  | some s => s != ""
  | none => false

/-- `Menubox2.SELECT_MODE`. -/
inductive SelectMode where
  | normal
  | persistent
  | multiselect
  | multiselect_interactive
deriving DecidableEq, Repr

/-- `get isMultiselect ()`:
`[multiselect, multiselect_interactive].includes(this.selectMode)`. -/
def SelectMode.isMultiselect : SelectMode → Bool
  | .multiselect => true
  | .multiselect_interactive => true
  | _ => false

/-- One entry of a definition's `items` array: a separator, or an item
definition with its optional key, optional item-level callback, initial
checked/enabled states, and optional submenu (identified by the id the
nested menubox would get). -/
inductive ItemDef where
  | separator
  | item (key : Option String) (itemCallback : Option Nat) (checked : Bool)
      (enabled : Bool) (submenu : Option String)
deriving DecidableEq, Repr

def ItemDef.keyOf : ItemDef → Option String
  | .separator => none
  | .item k _ _ _ _ => k

def ItemDef.itemCallbackOf : ItemDef → Option Nat
  | .separator => none
  | .item _ ic _ _ _ => ic

def ItemDef.submenuOf : ItemDef → Option String
  | .separator => none
  | .item _ _ _ _ sub => sub

def ItemDef.checkedDef : ItemDef → Bool
  | .separator => false
  | .item _ _ c _ _ => c

def ItemDef.enabledDef : ItemDef → Bool
  | .separator => true
  | .item _ _ _ e _ => e

/-- The classes given to an item's rendered element:
`Menubox2ItemRenderer.create` adds `"menubox-item"` for a truthy key and
`"menubox-label"` otherwise (the definition's extra `cssClasses` are
omitted), and the `Menubox2Item` constructor then adds `"multiselect"` when
the owning box is multiselect, `"checked"` when the definition has
`checked === true` and `"disabled"` when it has `enabled === false` (the
`"submenuitem"` class is likewise irrelevant to the claims and omitted). -/
def renderClasses (key : Option String) (multiselect checked enabled : Bool) : ClassList :=
  let base : ClassList := [if keyTruthy key then "menubox-item" else "menubox-label"]
  let c1 := if multiselect then base.addClass "multiselect" else base
  let c2 := if checked then c1.addClass "checked" else c1
  if enabled then c2 else c2.addClass "disabled"

/-- `event.target.closest(".menubox-item")?.dataset?.key` for a click whose
target is the rendered element of an item with the given key: only elements
of truthy-keyed items carry the `"menubox-item"` class and a `data-key`, and
no ancestor of an item element carries them. -/
def resolveTargetKey (key : Option String) : Option String :=
  if keyTruthy key then key else none

/-- The mutable state the click dispatch touches: box visibility, the items'
checked and enabled states (per item key), and the log of callback
invocations `(callback id, item key)` in order. -/
structure UIState where
  vis : Vis
  checked : String → Bool
  enabled : String → Bool
  callbackLog : List (Nat × String)

/-- A menubox as the click dispatch sees it: its id, its ancestor chain
(nearest parent first), its select-mode, its optional menubox-level callback,
and its items map (`this.items`, an insertion-ordered map from key to item). -/
structure DBox where
  id : String
  ancestors : List String
  selectMode : SelectMode
  callback : Option Nat
  items : List (String × ItemDef)
deriving DecidableEq, Repr

/-- `Menubox2.onMenuItemClick(event, menubox)`: resolve the clicked element
to a menu item via the items map; ignore unresolved clicks and disabled
items; in multiselect modes toggle the item's checked state; fire the
menubox callback when the select-mode is `normal` or
`multiselect_interactive`, the item has no submenu and a callback is
registered; then either pop up the item's submenu or, in `normal` mode,
`close()` the menubox. -/
def onMenuItemClick (b : DBox) (targetKey : Option String) (st : UIState) : UIState :=
  match targetKey with
  | none => st
  | some k =>
    match b.items.find? (fun e => e.1 == k) with
    | none => st
    | some e =>
      if st.enabled e.1 then
        let st1 := if b.selectMode.isMultiselect
          then { st with checked := fun x => if x = e.1 then !(st.checked e.1) else st.checked x }
          else st
        let st2 :=
          if ((b.selectMode == SelectMode.normal)
              || (b.selectMode == SelectMode.multiselect_interactive))
              && (e.2.submenuOf == none) then
            match b.callback with
            | some f => { st1 with callbackLog := st1.callbackLog ++ [(f, e.1)] }
            | none => st1
          else st1
        match e.2.submenuOf with
        | some subId => { st2 with vis := setVis subId true st2.vis }
        | none =>
          if b.selectMode == SelectMode.normal
          then { st2 with vis := closeVis b.id b.ancestors st2.vis }
          else st2
      else st

/-- A user click on the rendered element of item `d` of box `b`.  If the
`Menubox2Item` constructor installed the element's own `onclick` handler
(truthy key, no submenu object, an item-level callback function), that
handler runs and stops propagation: for an enabled item it invokes the
item-level callback and calls `this.menubox.close()`.  Otherwise the event
bubbles to the menubox element, whose handler is `Menubox2.onMenuItemClick`. -/
def dispatchClick (b : DBox) (d : ItemDef) (st : UIState) : UIState :=
  if keyTruthy d.keyOf && (d.submenuOf == none) && d.itemCallbackOf.isSome then
    match d.keyOf, d.itemCallbackOf with
    | some k, some f =>
      if st.enabled k then
        { st with
          callbackLog := st.callbackLog ++ [(f, k)],
          vis := closeVis b.id b.ancestors st.vis }
      else st
    | _, _ => st
  else
    onMenuItemClick b (resolveTargetKey d.keyOf) st

/-- `getCheckedItems()`: walk the items map in insertion order and collect
the items whose `checked` getter is true. -/
def getCheckedItems (items : List (String × ItemDef)) (checked : String → Bool) :
    List (String × ItemDef) :=
  items.foldl (fun res e => if checked e.1 then res ++ [e] else res) []

theorem foldl_push_filter (p : String × ItemDef → Bool)
    (l : List (String × ItemDef)) (init : List (String × ItemDef)) :
    l.foldl (fun res e => if p e then res ++ [e] else res) init = init ++ l.filter p := by
  induction l generalizing init with
  | nil => simp
  | cons e rest ih =>
    by_cases hp : p e = true
    · rw [List.foldl_cons, List.filter_cons]
      simp only [hp, if_pos]
      rw [ih (init ++ [e]), List.append_assoc]
      rfl
    · have hp' : p e = false := by simpa using hp
      rw [List.foldl_cons, List.filter_cons]
      simp only [hp', Bool.false_eq_true, if_false]
      exact ih init

/-- `getCheckedItems` returns exactly the checked items, in map order. -/
theorem getCheckedItems_eq_filter (items : List (String × ItemDef))
    (checked : String → Bool) :
    getCheckedItems items checked = items.filter (fun e => checked e.1) := by
  unfold getCheckedItems
  rw [foldl_push_filter (fun e => checked e.1) items []]
  rfl

/-- A fixed "everything hidden/unchecked/enabled, empty log" state. -/
def st0 : UIState :=
  ⟨fun _ => false, fun _ => false, fun _ => true, []⟩

/-- Counterexample fixture for C2: a root menubox in `normal` mode with a
menubox-level callback (id 1) whose single item `"a"` also carries an
item-level callback (id 2). -/
def cexBox2 : DBox :=
  ⟨"m1", [], .normal, some 1, [("a", .item (some "a") (some 2) false true none)]⟩

/-- Witness fixture for C2: a submenu box (parent `"root2"`) in `normal` mode
with callback id 1 and one plain item `"a"`. -/
def wBox2 : DBox :=
  ⟨"w2", ["root2"], .normal, some 1, [("a", .item (some "a") none false true none)]⟩

/-! ## Claim C2: normal-mode click fires the callback and closes the chain -/

/-- Evaluation of a click in `normal` mode on an enabled, truthy-keyed,
submenu-less item without an item-level callback: the menubox-level callback
is logged once and the box is closed (hiding it and its ancestors). -/
theorem normal_click_eval (b : DBox) (st : UIState)
    (k : String) (f : Nat) (chk en : Bool)
    (hmode : b.selectMode = .normal)
    (hcb : b.callback = some f)
    (hk : k ≠ "")
    (hfind : b.items.find? (fun e => e.1 == k) = some (k, .item (some k) none chk en none))
    (hen : st.enabled k = true) :
    dispatchClick b (.item (some k) none chk en none) st =
      { st with
        callbackLog := st.callbackLog ++ [(f, k)],
        vis := closeVis b.id b.ancestors st.vis } := by
  have hkb : (k != "") = true := by simpa using hk
  unfold dispatchClick
  simp only [ItemDef.keyOf, ItemDef.submenuOf, ItemDef.itemCallbackOf, keyTruthy,
    hkb, Option.isSome_none, Bool.and_false, Bool.false_eq_true, if_false,
    resolveTargetKey, if_pos]
  simp only [onMenuItemClick]
  rw [hfind]
  simp only [hen, if_pos, hmode, hcb]
  simp [SelectMode.isMultiselect, ItemDef.submenuOf]

/-- **C2, counterexample.** The claim quantifies over every enabled keyed
submenu-less item, but an item carrying its own item-level callback gets its
own `onclick` handler in the `Menubox2Item` constructor, which stops
propagation: the registered menubox-level callback (id 1) is never invoked —
the item-level callback (id 2) runs instead — even though the menubox is in
`normal` mode with a callback registered. -/
theorem normal_click_item_callback_cex :
    cexBox2.selectMode = SelectMode.normal ∧
    cexBox2.callback = some 1 ∧
    st0.enabled "a" = true ∧
    (dispatchClick cexBox2 (.item (some "a") (some 2) false true none) st0).callbackLog
      = [(2, "a")] ∧
    (dispatchClick cexBox2 (.item (some "a") (some 2) false true none) st0).callbackLog.countP
      (fun e => e.1 == 1) = 0 := by
  decide

/-- **C2, amended.** For every menubox in `normal` select-mode with a
registered menubox-level callback, dispatching a click on an enabled item
that has a key, no submenu and **no item-level callback** invokes the
menubox-level callback exactly once with that item, and afterwards the
menubox and every one of its ancestors is hidden. -/
theorem normal_click_fires_callback_and_closes (b : DBox) (st : UIState)
    (k : String) (f : Nat) (chk en : Bool)
    (hmode : b.selectMode = .normal)
    (hcb : b.callback = some f)
    (hk : k ≠ "")
    (hfind : b.items.find? (fun e => e.1 == k) = some (k, .item (some k) none chk en none))
    (hen : st.enabled k = true) :
    (dispatchClick b (.item (some k) none chk en none) st).callbackLog
      = st.callbackLog ++ [(f, k)] ∧
    (dispatchClick b (.item (some k) none chk en none) st).vis b.id = false ∧
    ∀ a ∈ b.ancestors, (dispatchClick b (.item (some k) none chk en none) st).vis a = false := by
  rw [normal_click_eval b st k f chk en hmode hcb hk hfind hen]
  refine ⟨rfl, closeVis_self b.id b.ancestors st.vis, fun a ha => ?_⟩
  exact closeVis_anc b.id b.ancestors st.vis a ha

/-- Witness for C2 (amended) on a concrete submenu box with one item. -/
theorem normal_click_fires_callback_and_closes_witness :
    ("a" : String) ≠ "" ∧
    (dispatchClick wBox2 (.item (some "a") none false true none) st0).callbackLog
      = [(1, "a")] ∧
    (dispatchClick wBox2 (.item (some "a") none false true none) st0).vis "w2" = false ∧
    (dispatchClick wBox2 (.item (some "a") none false true none) st0).vis "root2" = false := by
  have h := normal_click_fires_callback_and_closes wBox2 st0 "a" 1 false true
    rfl rfl (by decide) (by decide) rfl
  exact ⟨by decide, h.1, h.2.1, h.2.2 "root2" (by decide)⟩

/-- Counterexample fixture for C4: a `multiselect` menubox whose item `"a"`
carries an item-level callback (id 9). -/
def cexBox4 : DBox :=
  ⟨"m4", [], .multiselect, none, [("a", .item (some "a") (some 9) false true none)]⟩

/-- Witness fixture for C4: a plain `multiselect` menubox with items `"a"`
and `"b"`. -/
def wBox4 : DBox :=
  ⟨"w4", [], .multiselect, none,
   [("a", .item (some "a") none false true none),
    ("b", .item (some "b") none true true none)]⟩

/-! ## Claim C4: multiselect click toggles `checked` -/

/-- Evaluation of a click in a multiselect mode on an enabled, truthy-keyed
item without an item-level callback: the item's checked state is flipped
(whatever else — callback, submenu popup — the dispatch does). -/
theorem multiselect_click_eval (b : DBox) (st : UIState)
    (k : String) (chk en : Bool) (sub : Option String)
    (hms : b.selectMode.isMultiselect = true)
    (hk : k ≠ "")
    (hfind : b.items.find? (fun e => e.1 == k) = some (k, .item (some k) none chk en sub))
    (hen : st.enabled k = true) :
    (dispatchClick b (.item (some k) none chk en sub) st).checked
      = fun x => if x = k then !(st.checked k) else st.checked x := by
  have hkb : (k != "") = true := by simpa using hk
  unfold dispatchClick
  simp only [ItemDef.keyOf, ItemDef.submenuOf, ItemDef.itemCallbackOf, keyTruthy,
    hkb, Option.isSome_none, Bool.and_false, Bool.false_eq_true, if_false,
    resolveTargetKey, if_pos]
  simp only [onMenuItemClick]
  rw [hfind]
  simp only [hen, if_pos, hms]
  cases hsm : b.selectMode with
  | normal => rw [hsm] at hms; simp [SelectMode.isMultiselect] at hms
  | persistent => rw [hsm] at hms; simp [SelectMode.isMultiselect] at hms
  | multiselect =>
    cases sub <;> cases b.callback <;> simp [ItemDef.submenuOf]
  | multiselect_interactive =>
    cases sub <;> cases b.callback <;> simp [ItemDef.submenuOf]

/-- **C4, counterexample.** As for C2, an item with its own item-level
callback bypasses `Menubox2.onMenuItemClick` entirely: clicking the enabled
keyed item `"a"` of a `multiselect` menubox leaves its checked flag
unchanged (and, incidentally, even closes the box) instead of flipping it. -/
theorem multiselect_click_item_callback_cex :
    cexBox4.selectMode.isMultiselect = true ∧
    st0.enabled "a" = true ∧
    st0.checked "a" = false ∧
    (dispatchClick cexBox4 (.item (some "a") (some 9) false true none) st0).checked "a"
      = false := by
  decide

/-- **C4, amended.** For every menubox in a multiselect select-mode,
dispatching a click on an enabled keyed item **without an item-level
callback** flips that item's checked flag and changes no other item's checked
flag; and at every point `getCheckedItems` returns exactly the items whose
checked flag is true, in the original item-collection order. -/
theorem multiselect_click_toggles_checked (b : DBox) (st : UIState)
    (k : String) (chk en : Bool) (sub : Option String)
    (hms : b.selectMode.isMultiselect = true)
    (hk : k ≠ "")
    (hfind : b.items.find? (fun e => e.1 == k) = some (k, .item (some k) none chk en sub))
    (hen : st.enabled k = true) :
    (dispatchClick b (.item (some k) none chk en sub) st).checked k = !(st.checked k) ∧
    (∀ x, x ≠ k →
      (dispatchClick b (.item (some k) none chk en sub) st).checked x = st.checked x) ∧
    (∀ checked : String → Bool,
      getCheckedItems b.items checked = b.items.filter (fun e => checked e.1)) := by
  rw [multiselect_click_eval b st k chk en sub hms hk hfind hen]
  refine ⟨by simp, fun x hx => by simp [hx], fun checked => getCheckedItems_eq_filter _ _⟩

/-- Witness for C4 (amended) on a concrete multiselect box with two items. -/
theorem multiselect_click_toggles_checked_witness :
    ("a" : String) ≠ "" ∧
    (dispatchClick wBox4 (.item (some "a") none false true none) st0).checked "a" = true ∧
    (dispatchClick wBox4 (.item (some "a") none false true none) st0).checked "b" = false ∧
    getCheckedItems wBox4.items (fun x => x == "b")
      = [("b", .item (some "b") none true true none)] := by
  have h := multiselect_click_toggles_checked wBox4 st0 "a" false true none
    rfl (by decide) (by decide) rfl
  refine ⟨by decide, by simpa using h.1, h.2.1 "b" (by decide), ?_⟩
  rw [h.2.2 (fun x => x == "b")]
  decide

/-! ## Claim C10: only truthy-keyed non-separator definitions enter the map -/

/-- `Map.set` of a JS `Map`, on an association list: overwrite in place if
the key exists (JS Maps keep the original insertion position), append
otherwise. -/
def mapSet (m : List (String × ItemDef)) (k : String) (v : ItemDef) :
    List (String × ItemDef) :=
  if m.any (fun e => e.1 == k)
  then m.map (fun e => if e.1 == k then (k, v) else e)
  else m ++ [(k, v)]

/-- One iteration of `__setItems`' loop: a separator only appends an `<hr>`
element; any other definition constructs a `Menubox2Item`, and
`if (itemDef.key)` — key truthy — registers it under its key. -/
def buildStep (m : List (String × ItemDef)) (d : ItemDef) :
    List (String × ItemDef) :=
  match d with
  | .separator => m
  | .item key ic c en sub =>
    match key with
    | some k => if k != "" then mapSet m k (.item key ic c en sub) else m
    | none => m

/-- `__setItems(self, itemDefs)`: `self.items = new Map()` then the loop. -/
def buildItemsMap (defs : List ItemDef) : List (String × ItemDef) :=
  defs.foldl buildStep []

/-- The truthy keys of the non-separator definitions, in definition order. -/
def truthyKeys (defs : List ItemDef) : List String :=
  defs.filterMap (fun d =>
    match d with
    | .item (some k) _ _ _ _ => if k != "" then some k else none
    | _ => none)

theorem mapSet_of_fresh (m : List (String × ItemDef)) (k : String) (v : ItemDef)
    (h : k ∉ m.map Prod.fst) : mapSet m k v = m ++ [(k, v)] := by
  unfold mapSet
  have hany : m.any (fun e => e.1 == k) = false := by
    rw [List.any_eq_false]
    intro e he
    intro hek
    have he2 : e.1 = k := by simpa using hek
    exact h (List.mem_map.mpr ⟨e, he, he2⟩)
  simp [hany]

theorem buildItemsMap_go (defs : List ItemDef) (m : List (String × ItemDef))
    (hnd : (truthyKeys defs).Nodup)
    (hfresh : ∀ k ∈ truthyKeys defs, k ∉ m.map Prod.fst) :
    (defs.foldl buildStep m).map Prod.fst = m.map Prod.fst ++ truthyKeys defs := by
  induction defs generalizing m with
  | nil => rw [List.foldl_nil, truthyKeys, List.filterMap_nil, List.append_nil]
  | cons d rest ih =>
    cases d with
    | separator =>
      have ht : truthyKeys (ItemDef.separator :: rest) = truthyKeys rest := by
        simp [truthyKeys, List.filterMap_cons]
      rw [ht] at hnd hfresh
      rw [List.foldl_cons, ht]
      show (rest.foldl buildStep m).map Prod.fst = m.map Prod.fst ++ truthyKeys rest
      exact ih m hnd hfresh
    | item key ic c en sub =>
      cases key with
      | none =>
        have ht : truthyKeys (ItemDef.item none ic c en sub :: rest) = truthyKeys rest := by
          simp [truthyKeys, List.filterMap_cons]
        rw [ht] at hnd hfresh
        rw [List.foldl_cons, ht]
        show (rest.foldl buildStep m).map Prod.fst = m.map Prod.fst ++ truthyKeys rest
        exact ih m hnd hfresh
      | some k =>
        by_cases hk : k = ""
        · have ht : truthyKeys (ItemDef.item (some k) ic c en sub :: rest)
              = truthyKeys rest := by
            simp [truthyKeys, List.filterMap_cons, hk]
          rw [ht] at hnd hfresh
          have hstep : buildStep m (ItemDef.item (some k) ic c en sub) = m := by
            unfold buildStep
            simp [hk]
          rw [List.foldl_cons, hstep, ht]
          exact ih m hnd hfresh
        · have hkb : (k != "") = true := by simpa using hk
          have ht : truthyKeys (ItemDef.item (some k) ic c en sub :: rest)
              = k :: truthyKeys rest := by
            simp [truthyKeys, List.filterMap_cons, hk]
          rw [ht] at hnd hfresh
          have hknotr : k ∉ truthyKeys rest := (List.nodup_cons.mp hnd).1
          have hndr : (truthyKeys rest).Nodup := (List.nodup_cons.mp hnd).2
          have hkm : k ∉ m.map Prod.fst :=
            hfresh k (List.mem_cons_self _ _)
          have hstep : buildStep m (ItemDef.item (some k) ic c en sub)
              = m ++ [(k, ItemDef.item (some k) ic c en sub)] := by
            unfold buildStep
            simp only [hkb, if_pos]
            exact mapSet_of_fresh m k _ hkm
          have hfresh2 : ∀ x ∈ truthyKeys rest,
              x ∉ (m ++ [(k, ItemDef.item (some k) ic c en sub)]).map Prod.fst := by
            intro x hx
            rw [List.map_append]
            intro hmem
            rcases List.mem_append.mp hmem with hm1 | hm2
            · exact hfresh x (List.mem_cons.mpr (Or.inr hx)) hm1
            · simp only [List.map_cons, List.map_nil, List.mem_singleton] at hm2
              rw [hm2] at hx
              exact hknotr hx
          rw [List.foldl_cons, hstep, ht,
              ih (m ++ [(k, ItemDef.item (some k) ic c en sub)]) hndr hfresh2,
              List.map_append]
          simp

/-- **C10.** Under distinct truthy keys, exactly the non-separator item
definitions with a truthy key enter the items map, in definition order; a
keyless definition with `checked: true` is rendered with the `"checked"`
class but its element carries no `"menubox-item"` class, so a click on it
resolves to nothing and the dispatch is a no-op, and `getCheckedItems` (which
walks the map) can only ever return truthy-keyed items. -/
theorem setItems_truthy_keys_only (defs : List ItemDef)
    (hnd : (truthyKeys defs).Nodup) :
    (buildItemsMap defs).map Prod.fst = truthyKeys defs ∧
    (∀ ms en : Bool, (renderClasses none ms true en).containsClass "checked" = true) ∧
    (∀ ms en : Bool, (renderClasses none ms true en).containsClass "menubox-item" = false) ∧
    resolveTargetKey none = none ∧
    (∀ (b : DBox) (st : UIState) (ic : Option Nat) (chk en : Bool) (sub : Option String),
      dispatchClick b (.item none ic chk en sub) st = st) ∧
    (∀ (checked : String → Bool) (e : String × ItemDef),
      e ∈ getCheckedItems (buildItemsMap defs) checked → e.1 ∈ truthyKeys defs) := by
  have hkeys : (buildItemsMap defs).map Prod.fst = truthyKeys defs := by
    have h := buildItemsMap_go defs [] hnd (by intro k hk; simp)
    simpa [buildItemsMap] using h
  refine ⟨hkeys, ?_, ?_, rfl, ?_, ?_⟩
  · intro ms en
    cases ms <;> cases en <;> decide
  · intro ms en
    cases ms <;> cases en <;> decide
  · intro b st ic chk en sub
    rfl
  · intro checked e he
    rw [getCheckedItems_eq_filter] at he
    have hm : e ∈ buildItemsMap defs := List.mem_of_mem_filter he
    rw [← hkeys]
    exact List.mem_map.mpr ⟨e, hm, rfl⟩

/-- Witness for C10 on a concrete definition list: one keyed item, one
separator, one keyless-but-checked item and one empty-key item; only `"a"`
enters the map, and the dispatch on the keyless item is a no-op. -/
theorem setItems_truthy_keys_only_witness :
    (truthyKeys [ItemDef.item (some "a") none false true none, ItemDef.separator,
      ItemDef.item none none true true none,
      ItemDef.item (some "") none false true none]).Nodup ∧
    (buildItemsMap [ItemDef.item (some "a") none false true none, ItemDef.separator,
      ItemDef.item none none true true none,
      ItemDef.item (some "") none false true none]).map Prod.fst = ["a"] ∧
    (renderClasses none false true true).containsClass "checked" = true ∧
    dispatchClick wBox4 (.item none none true true none) st0 = st0 := by
  have h := setItems_truthy_keys_only
    [ItemDef.item (some "a") none false true none, ItemDef.separator,
     ItemDef.item none none true true none,
     ItemDef.item (some "") none false true none] (by decide)
  refine ⟨by decide, ?_, h.2.1 false true, h.2.2.2.2.1 wBox4 st0 none true true none⟩
  rw [h.1]
  decide

end Menubox
